import Mathlib

/-!
Shallow embedding of `inferringAndExpanding.py`, a four-stage pipeline:
loader (`read_reviews`), extractor (`extract_review_info`), remote
enrichment (`guess_product`, `analyze_sentiment` over a chat session),
and CSV writer (`save_to_csv`), orchestrated by `process_reviews` and
`main`.

Python strings are modelled as `List Char`; file contents and the
environment are passed in explicitly; the remote Gemini chat session is
modelled by a response oracle (`ChatModel`) together with the explicit
message history that the session accumulates; exceptions are modelled
with `Except`/`Option`.
-/

abbrev Str := List Char

/-- Python `str.strip()`: drop whitespace from both ends. -/
def pyStrip (s : Str) : Str :=
  ((s.dropWhile Char.isWhitespace).reverse.dropWhile Char.isWhitespace).reverse

/-- Python `str.lower()` (character-wise lowercasing). -/
def pyLower (s : Str) : Str :=
  s.map Char.toLower

/-- Locates the first occurrence of `sep` in `s`, returning the part
before it and the part after it (Python `str.find` + slicing, the core
of `str.split`). -/
def splitFirst (sep : Str) : Str → Option (Str × Str)
  | [] => none
  | x :: xs =>
    if sep.isPrefixOf (x :: xs) then
      some ([], (x :: xs).drop sep.length)
    else
      match splitFirst sep xs with
      | none => none
      | some (pre, post) => some (x :: pre, post)

/-- Fuel-indexed splitting loop: repeatedly cut at the first occurrence
of `sep`.  Each cut removes at least one character, so `s.length` fuel
is always enough. -/
def pySplitOnFuel (sep : Str) : Nat → Str → List Str
  | 0, s => [s]
  | fuel + 1, s =>
    match splitFirst sep s with
    | none => [s]
    | some (pre, post) => pre :: pySplitOnFuel sep fuel post

/-- Python `str.split(sep)` for a non-empty separator (the only way the
program calls it; Python raises `ValueError` on an empty separator). -/
def pySplit (sep : Str) (s : Str) : List Str :=
  if sep.isEmpty then [s] else pySplitOnFuel sep s.length s

/-- Python `str.split(sep, 1)` for a single-character separator: at most
one cut, at the first occurrence. -/
def pySplit1 (c : Char) : Str → List Str
  | [] => [[]]
  | x :: xs =>
    if x = c then [[], xs]
    else
      match pySplit1 c xs with
      | [] => [[x]]
      | a :: rest => (x :: a) :: rest

/-- The default `delimiter` argument of `read_reviews` and
`process_reviews`. -/
def DEFAULT_DELIMITER : Str := "---END OF REVIEW---".data

/-- `read_reviews`: split the file contents on the delimiter, strip each
segment, keep only the segments that are non-empty after stripping
(`[review.strip() for review in reviews if review.strip()]`).  The file
contents are passed in place of the file path. -/
def read_reviews (contents : Str) (delimiter : Str := DEFAULT_DELIMITER) : List Str :=
  ((pySplit delimiter contents).map pyStrip).filter (fun b => b ≠ [])

def PRODUCT_LABEL : Str := "Product:".data

def REVIEW_LABEL : Str := "Review:".data

def NEWLINE : Str := "\n".data

/-- Loop body of `extract_review_info`: scan the lines in order,
threading the current `product` and `review_text` values.  The
`line.split(":", 1)[1]` indexing is modelled fallibly: `none` stands for
an `IndexError`. -/
def extractLoop : List Str → Str → Str → Option (Str × Str)
  | [], product, review_text => some (product, review_text)
  | line :: rest, product, review_text =>
    if PRODUCT_LABEL.isPrefixOf line then
      match (pySplit1 ':' line).get? 1 with
      | none => none
      | some t => extractLoop rest (pyStrip t) review_text
    else if REVIEW_LABEL.isPrefixOf line then
      match (pySplit1 ':' line).get? 1 with
      | none => none
      | some t => extractLoop rest product (pyStrip t)
    else
      extractLoop rest product review_text

/-- `extract_review_info`: split the blob into lines and scan them,
starting from empty `product` and `review_text`. -/
def extract_review_info (review : Str) : Option (Str × Str) :=
  extractLoop (pySplit NEWLINE review) [] []

/-- Text after the first colon of a line, as the specification words it
(used only to state properties; the program itself indexes into
`line.split(":", 1)`). -/
def afterFirstColon (line : Str) : Str :=
  (line.dropWhile (fun c => c ≠ ':')).drop 1

/-- The remote generative model behind the chat session, abstracted as
a response oracle: given the conversational history (the messages sent
so far in the session) and the new message, it either answers with the
response text or raises (`.error`, covering network / quota / malformed
response failures). -/
structure ChatModel where
  respond : List Str → Str → Except Str Str

/-- The mutable state of `chat_session`: the messages sent so far. -/
abbrev History := List Str

/-- `chat_session.send_message(prompt)`: ask the oracle, and on success
append the prompt to the session history. -/
def send_message (m : ChatModel) (hist : History) (prompt : Str) :
    Except Str (History × Str) :=
  match m.respond hist prompt with
  | .error e => .error e
  | .ok text => .ok (hist ++ [prompt], text)

/-- The f-string sent by `guess_product`. -/
def productPrompt (review_text : Str) : Str :=
  "Guess the product name based on this review in one word: ".data ++ review_text

/-- The first f-string sent by `analyze_sentiment`. -/
def sentimentPrompt (review_text : Str) : Str :=
  "Categorize the sentiment in one word of this review in Positive/Negative/Neutral: ".data ++ review_text

/-- The second f-string sent by `analyze_sentiment`, conditioned on the
sentiment just computed. -/
def replyPrompt (review_text : Str) (sentiment : Str) : Str :=
  "Add a 40 words reply to this review: ".data ++ review_text
    ++ " as per sentiment ".data ++ sentiment

/-- `analyze_sentiment`: one remote call for the sentiment (stored
lowercased), then one remote call for the reply (stored verbatim). -/
def analyze_sentiment (review_text : Str) (m : ChatModel) (hist : History) :
    Except Str (History × (Str × Str)) :=
  match send_message m hist (sentimentPrompt review_text) with
  | .error e => .error e
  | .ok (h1, stext) =>
    let sentiment := pyLower stext
    match send_message m h1 (replyPrompt review_text sentiment) with
    | .error e => .error e
    | .ok (h2, reply) => .ok (h2, (sentiment, reply))

/-- `guess_product`: one remote call, response stored trimmed. -/
def guess_product (review_text : Str) (m : ChatModel) (hist : History) :
    Except Str (History × Str) :=
  match send_message m hist (productPrompt review_text) with
  | .error e => .error e
  | .ok (h1, text) => .ok (h1, pyStrip text)

/-- One CSV row, a list of fields (`csv.writer` level of abstraction:
rows are lists of strings). -/
abbrev Row := List Str

/-- The header row written by `save_to_csv`. -/
def csvHeader : Row :=
  ["Original Product".data, "Guessed Product".data, "Review".data,
   "Sentiment".data, "Reply".data]

set_option linter.unusedVariables false in
/-- `save_to_csv`: opening the destination with mode `w` truncates it,
so the resulting file state is the header row followed by the data
rows, whatever `oldFile` held.  A file state is `none` when the file
does not exist. -/
def save_to_csv (data : List Row) (oldFile : Option (List Row)) : Option (List Row) :=
  some (csvHeader :: data)

/-- Body of one iteration of the `for review in reviews` loop of
`process_reviews`: extract, guess the product, classify sentiment and
draft the reply, and assemble the output row.  The `time.sleep(2)`
pause has no observable effect in this pure model. -/
def processStep (m : ChatModel) (hist : History) (review : Str) :
    Except Str (History × Row) :=
  match extract_review_info review with
  | none => .error "IndexError".data
  | some (original_product, review_text) =>
    match guess_product review_text m hist with
    | .error e => .error e
    | .ok (h1, guessed_product) =>
      match analyze_sentiment review_text m h1 with
      | .error e => .error e
      | .ok (h2, (sentiment, reply)) =>
        .ok (h2, [original_product, guessed_product, review_text, sentiment, reply])

/-- The `for review in reviews` loop of `process_reviews`, threading the
session history and the accumulating `data` list; the first raised
exception aborts the whole loop. -/
def processLoop (m : ChatModel) : History → List Row → List Str →
    Except Str (History × List Row)
  | hist, data, [] => .ok (hist, data)
  | hist, data, review :: rest =>
    match processStep m hist review with
    | .error e => .error e
    | .ok (h1, row) => processLoop m h1 (data ++ [row]) rest

/-- `process_reviews`: read the reviews, run the loop, and only when the
loop finishes without an exception call `save_to_csv`.  Returns the
final state of the output file together with the outcome; on an
exception the output file state `fs` is untouched. -/
def process_reviews (contents : Str) (m : ChatModel) (hist : History)
    (fs : Option (List Row)) (delimiter : Str := DEFAULT_DELIMITER) :
    Option (List Row) × Except Str History :=
  match processLoop m hist [] (read_reviews contents delimiter) with
  | .error e => (fs, .error e)
  | .ok (h2, data) => (save_to_csv data fs, .ok h2)

def GEMINI_API_KEY : Str := "GEMINI_API_KEY".data

/-- Message of the `ValueError` raised when the credential is missing. -/
def apiKeyErrorMsg : Str := "API key not found in environment variables.".data

/-- Prefix printed by the top-level `except` handler. -/
def errorPrefix : Str := "An error occurred: ".data

namespace Src

/-- `main`: look up the credential in the environment; a missing or
empty (falsy) key raises `ValueError` before any processing; otherwise
the chat session starts with empty history and `process_reviews` runs.
The top-level handler turns any exception into a printed message
(second component); the first component is the final output-file
state. -/
def main (env : Str → Option Str) (contents : Str) (m : ChatModel)
    (fs : Option (List Row)) : Option (List Row) × Option Str :=
  match env GEMINI_API_KEY with
  | none => (fs, some (errorPrefix ++ apiKeyErrorMsg))
  | some key =>
    if key = [] then (fs, some (errorPrefix ++ apiKeyErrorMsg))
    else
      match process_reviews contents m [] fs DEFAULT_DELIMITER with
      | (fs2, .ok _) => (fs2, none)
      | (fs2, .error e) => (fs2, some (errorPrefix ++ e))

end Src

/-! Helper lemmas about the string primitives. -/

theorem charOfNat_toNat {n : Nat} (h : n.isValidChar) : (Char.ofNat n).toNat = n := by
  rw [Char.ofNat, dif_pos h]
  rfl

theorem toLower_eq (c : Char) :
    c.toLower = if c.toNat ≥ 65 ∧ c.toNat ≤ 90 then Char.ofNat (c.toNat + 32) else c := rfl

theorem toLower_toLower (c : Char) : c.toLower.toLower = c.toLower := by
  rw [toLower_eq c]
  by_cases h : c.toNat ≥ 65 ∧ c.toNat ≤ 90
  · rw [if_pos h, toLower_eq, charOfNat_toNat (Or.inl (by omega)), if_neg (by omega)]
  · rw [if_neg h, toLower_eq, if_neg h]

theorem pyLower_pyLower (s : Str) : pyLower (pyLower s) = pyLower s := by
  induction s with
  | nil => rfl
  | cons a s ih =>
    simp only [pyLower, List.map_cons] at ih ⊢
    rw [toLower_toLower, ih]

theorem isPrefixOf_ex {L line : Str} (h : L.isPrefixOf line = true) :
    ∃ t, line = L ++ t := by
  rw [ List.isPrefixOf_iff_prefix] at h
  obtain ⟨t, ht⟩ := h
  exact ⟨t, ht.symm⟩

theorem isPrefixOf_append_self (L t : Str) : L.isPrefixOf (L ++ t) = true := by
  rw [ List.isPrefixOf_iff_prefix]
  exact List.prefix_append L t

theorem isPrefixOf_cons_of_ne {d x : Char} (ds xs : Str) (h : d ≠ x) :
    (d :: ds).isPrefixOf (x :: xs) = false := by
  rw [List.isPrefixOf_cons₂]
  simp [h]

theorem review_label_not_prefix (t : Str) :
    REVIEW_LABEL.isPrefixOf (PRODUCT_LABEL ++ t) = false :=
  isPrefixOf_cons_of_ne _ _ (by decide)

theorem pySplit1_product (t : Str) :
    pySplit1 ':' (PRODUCT_LABEL ++ t) = ["Product".data, t] := rfl

theorem pySplit1_review (t : Str) :
    pySplit1 ':' (REVIEW_LABEL ++ t) = ["Review".data, t] := rfl

theorem afterFirstColon_product (t : Str) : afterFirstColon (PRODUCT_LABEL ++ t) = t := rfl

theorem afterFirstColon_review (t : Str) : afterFirstColon (REVIEW_LABEL ++ t) = t := rfl

theorem splitFirst_eq_none {d : Char} (ds : Str) : ∀ {s : Str}, d ∉ s →
    splitFirst (d :: ds) s = none
  | [], _ => rfl
  | x :: xs, hd => by
    have hx : d ≠ x := fun hh => hd (List.mem_cons.mpr (Or.inl hh))
    have hxs : d ∉ xs := fun hh => hd (List.mem_cons.mpr (Or.inr hh))
    rw [splitFirst, isPrefixOf_cons_of_ne ds xs hx]
    simp only [Bool.false_eq_true, if_false, splitFirst_eq_none ds hxs]

theorem splitFirst_append {d : Char} (ds v : Str) : ∀ {u : Str}, d ∉ u →
    splitFirst (d :: ds) (u ++ ((d :: ds) ++ v)) = some (u, v)
  | [], _ => by
    rw [List.nil_append, List.cons_append, splitFirst, ← List.cons_append,
      isPrefixOf_append_self (d :: ds) v]
    simp only [if_true, List.drop_left]
  | x :: u', hd => by
    have hx : d ≠ x := fun hh => hd (List.mem_cons.mpr (Or.inl hh))
    have hu' : d ∉ u' := fun hh => hd (List.mem_cons.mpr (Or.inr hh))
    rw [List.cons_append, splitFirst, isPrefixOf_cons_of_ne _ _ hx]
    simp only [Bool.false_eq_true, if_false, splitFirst_append ds v hu']

theorem pySplitOnFuel_of_none {sep s : Str} (h : splitFirst sep s = none) :
    ∀ fuel, pySplitOnFuel sep fuel s = [s]
  | 0 => rfl
  | fuel + 1 => by rw [pySplitOnFuel, h]

theorem intercalate_cons₂ (sep s s2 : Str) (rest : List Str) :
    List.intercalate sep (s :: s2 :: rest) =
      s ++ (sep ++ List.intercalate sep (s2 :: rest)) := rfl

theorem intercalate_singleton (sep s : Str) : List.intercalate sep [s] = s := by
  simp [List.intercalate, List.intersperse]

theorem length_intercalate_ge (d : Char) (ds : Str) :
    ∀ segs : List Str, segs.length ≤ (List.intercalate (d :: ds) segs).length + 1
  | [] => by simp
  | [s] => by
    rw [intercalate_singleton]
    simp only [List.length_singleton]
    omega
  | s :: s2 :: rest => by
    have ih := length_intercalate_ge d ds (s2 :: rest)
    rw [intercalate_cons₂]
    simp only [List.length_cons, List.length_append] at ih ⊢
    omega

theorem pySplitOnFuel_intercalate (d : Char) (ds : Str) :
    ∀ (segs : List Str) (fuel : Nat), segs ≠ [] → (∀ s ∈ segs, d ∉ s) →
      segs.length ≤ fuel + 1 →
      pySplitOnFuel (d :: ds) fuel (List.intercalate (d :: ds) segs) = segs
  | [], _, hne, _, _ => absurd rfl hne
  | [s], fuel, _, hall, _ => by
    rw [intercalate_singleton]
    exact pySplitOnFuel_of_none (splitFirst_eq_none ds (hall s (List.mem_singleton.mpr rfl))) fuel
  | s :: s2 :: rest, fuel, _, hall, hlen => by
    have hfuel : ∃ k, fuel = k + 1 := by
      refine ⟨fuel - 1, ?_⟩
      simp only [List.length_cons] at hlen
      omega
    obtain ⟨k, rfl⟩ := hfuel
    rw [intercalate_cons₂, pySplitOnFuel,
      splitFirst_append ds (List.intercalate (d :: ds) (s2 :: rest))
        (hall s (List.mem_cons_self s (s2 :: rest)))]
    have hall2 : ∀ x ∈ s2 :: rest, d ∉ x := fun x hx =>
      hall x (List.mem_cons_of_mem s hx)
    have hlen2 : (s2 :: rest).length ≤ k + 1 := by
      simp only [List.length_cons] at hlen ⊢
      omega
    show s :: pySplitOnFuel (d :: ds) k (List.intercalate (d :: ds) (s2 :: rest))
        = s :: s2 :: rest
    rw [pySplitOnFuel_intercalate d ds (s2 :: rest) k (List.cons_ne_nil s2 rest) hall2 hlen2]

theorem pySplit_intercalate (d : Char) (ds : Str) (segs : List Str)
    (hne : segs ≠ []) (hall : ∀ s ∈ segs, d ∉ s) :
    pySplit (d :: ds) (List.intercalate (d :: ds) segs) = segs := by
  rw [pySplit]
  simp only [List.isEmpty_cons, Bool.false_eq_true, if_false]
  exact pySplitOnFuel_intercalate d ds segs _ hne hall
    (by have := length_intercalate_ge d ds segs; omega)

/-! Characterization of the extractor as an in-order scan. -/

/-- Field scan, as the specification words it: a line beginning with the
label sets the field to the text after the first colon, trimmed; any
other line leaves the field unchanged. -/
def fieldScan (label : Str) (acc : Str) (line : Str) : Str :=
  if label.isPrefixOf line then pyStrip (afterFirstColon line) else acc

theorem extractLoop_eq_scan :
    ∀ (lines : List Str) (p r : Str),
      extractLoop lines p r =
        some (lines.foldl (fieldScan PRODUCT_LABEL) p,
              lines.foldl (fieldScan REVIEW_LABEL) r)
  | [], p, r => rfl
  | line :: rest, p, r => by
    by_cases hp : PRODUCT_LABEL.isPrefixOf line = true
    · obtain ⟨t, rfl⟩ := isPrefixOf_ex hp
      rw [extractLoop]
      simp only [hp, if_true, pySplit1_product, List.get?_cons_succ, List.get?_cons_zero,
        List.foldl_cons, fieldScan, review_label_not_prefix, Bool.false_eq_true, if_false,
        afterFirstColon_product]
      exact extractLoop_eq_scan rest (pyStrip t) r
    · by_cases hr : REVIEW_LABEL.isPrefixOf line = true
      · obtain ⟨t, rfl⟩ := isPrefixOf_ex hr
        rw [extractLoop]
        simp only [hp, hr, if_true, Bool.false_eq_true, if_false, pySplit1_review,
          List.get?_cons_succ, List.get?_cons_zero, List.foldl_cons, fieldScan,
          afterFirstColon_review]
        exact extractLoop_eq_scan rest p (pyStrip t)
      · rw [extractLoop]
        simp only [hp, hr, Bool.false_eq_true, if_false, List.foldl_cons, fieldScan]
        exact extractLoop_eq_scan rest p r

theorem foldl_fieldScan_no_match {label : Str} :
    ∀ {ls : List Str}, (∀ l ∈ ls, label.isPrefixOf l = false) →
      ∀ a, ls.foldl (fieldScan label) a = a
  | [], _, a => rfl
  | x :: xs, h, a => by
    have hx := h x (List.mem_cons_self x xs)
    rw [List.foldl_cons, fieldScan, hx]
    simp only [Bool.false_eq_true, if_false]
    exact foldl_fieldScan_no_match (fun l hl => h l (List.mem_cons_of_mem x hl)) a

/-! Lemmas about the orchestration loop. -/

theorem processLoop_append (m : ChatModel) :
    ∀ (l1 l2 : List Str) (hist : History) (data : List Row),
      processLoop m hist data (l1 ++ l2) =
        match processLoop m hist data l1 with
        | .error e => .error e
        | .ok (h, d) => processLoop m h d l2
  | [], _, _, _ => rfl
  | r :: rest, l2, hist, data => by
    rw [List.cons_append, processLoop]
    cases hs : processStep m hist r with
    | error e => rw [processLoop, hs]
    | ok p =>
      rw [processLoop, hs]
      exact processLoop_append m rest l2 p.1 (data ++ [p.2])

theorem processLoop_length (m : ChatModel) :
    ∀ (rs : List Str) (hist h2 : History) (data out : List Row),
      processLoop m hist data rs = .ok (h2, out) →
        out.length = data.length + rs.length
  | [], hist, h2, data, out => by
    intro h
    rw [processLoop] at h
    simp only [Except.ok.injEq, Prod.mk.injEq] at h
    simp [← h.2]
  | r :: rest, hist, h2, data, out => by
    intro h
    rw [processLoop] at h
    cases hs : processStep m hist r with
    | error e => rw [hs] at h; exact absurd h (by simp)
    | ok p =>
      rw [hs] at h
      have ih := processLoop_length m rest p.1 h2 (data ++ [p.2]) out h
      simp only [List.length_append, List.length_singleton, List.length_cons,
        List.length_nil] at ih ⊢
      omega

/-! Concrete response oracles used to instantiate the theorems. -/

/-- An oracle that answers every message with `Good`. -/
def okModel : ChatModel := ⟨fun _ _ => .ok "Good".data⟩

/-- An oracle whose answers are not one of the three expected sentiment
labels. -/
def weirdModel : ChatModel := ⟨fun _ _ => .ok "WeIrD LaBeL".data⟩

/-- An oracle that fails with a quota error as soon as the session
history holds three messages, i.e. on the first call of the second
review. -/
def failModel : ChatModel :=
  ⟨fun h _ => if h.length ≥ 3 then .error "quota".data else .ok "Good".data⟩

/-- Session history after processing one review whose review text is
`ok` against `okModel`. -/
def wHist1 : History :=
  [productPrompt "ok".data, sentimentPrompt "ok".data,
   replyPrompt "ok".data "good".data]

/-- Output row for the review `Product: A\nReview: ok` against
`okModel`. -/
def wRow1 : Row :=
  ["A".data, "Good".data, "ok".data, "good".data, "Good".data]

/-! The claims. -/

/-- C3: the extractor scans the lines of the blob in order, a
`Product:` line sets the product field to the text after the first
colon trimmed, a `Review:` line sets the review field identically,
other lines are ignored, a field whose labeled line is absent stays the
empty string, and no error is raised (the result is always `some`). -/
theorem extract_scan_spec (review : Str) :
    extract_review_info review =
      some ((pySplit NEWLINE review).foldl (fieldScan PRODUCT_LABEL) [],
            (pySplit NEWLINE review).foldl (fieldScan REVIEW_LABEL) []) :=
  extractLoop_eq_scan (pySplit NEWLINE review) [] []

/-- C9: the extractor is total and never errors on any input string:
for every line that begins with `Product:` or `Review:`, splitting the
line at the first colon yields two parts (the label itself contains a
colon), so the index-1 access is in bounds, and `extract_review_info`
returns a result on every input. -/
theorem extract_total :
    (∀ line : Str,
      PRODUCT_LABEL.isPrefixOf line = true ∨ REVIEW_LABEL.isPrefixOf line = true →
      2 ≤ (pySplit1 ':' line).length) ∧
    ∀ review : Str, ∃ pr, extract_review_info review = some pr := by
  constructor
  · intro line h
    rcases h with h | h
    · obtain ⟨t, rfl⟩ := isPrefixOf_ex h
      rw [pySplit1_product]
      simp
    · obtain ⟨t, rfl⟩ := isPrefixOf_ex h
      rw [pySplit1_review]
      simp
  · intro review
    exact ⟨_, extractLoop_eq_scan (pySplit NEWLINE review) [] []⟩

/-- Witness for C9 at a concrete labeled line and a concrete malformed
blob. -/
theorem extract_total_witness :
    2 ≤ (pySplit1 ':' "Product: A".data).length ∧
    ∃ pr, extract_review_info "no labels here\njust text".data = some pr :=
  ⟨extract_total.1 "Product: A".data (Or.inl rfl),
   extract_total.2 "no labels here\njust text".data⟩

/-- C8: when several lines of a blob carry the same label, the field
returned by the extractor is the value parsed from the last such line:
later matching lines overwrite earlier ones.  Stated for the product
field and for the review field. -/
theorem extract_last_label_wins :
    (∀ review l₁ pl l₂, pySplit NEWLINE review = l₁ ++ pl :: l₂ →
      PRODUCT_LABEL.isPrefixOf pl = true →
      (∀ l ∈ l₂, PRODUCT_LABEL.isPrefixOf l = false) →
      (extract_review_info review).map Prod.fst =
        some (pyStrip (afterFirstColon pl))) ∧
    (∀ review l₁ pl l₂, pySplit NEWLINE review = l₁ ++ pl :: l₂ →
      REVIEW_LABEL.isPrefixOf pl = true →
      (∀ l ∈ l₂, REVIEW_LABEL.isPrefixOf l = false) →
      (extract_review_info review).map Prod.snd =
        some (pyStrip (afterFirstColon pl))) := by
  constructor
  · intro review l₁ pl l₂ hsplit hp hnone
    rw [extract_review_info, extractLoop_eq_scan, hsplit]
    simp only [Option.map_some']
    rw [List.foldl_append, List.foldl_cons, foldl_fieldScan_no_match hnone]
    rw [fieldScan, hp]
    simp
  · intro review l₁ pl l₂ hsplit hp hnone
    rw [extract_review_info, extractLoop_eq_scan, hsplit]
    simp only [Option.map_some']
    rw [List.foldl_append, List.foldl_cons, foldl_fieldScan_no_match hnone]
    rw [fieldScan, hp]
    simp

/-- Witness for C8: a blob with two `Product:` lines and two `Review:`
lines yields the values of the later lines. -/
theorem extract_last_label_wins_witness :
    (extract_review_info "Product: A\nProduct: B\nReview: x\nReview: y".data).map
        Prod.fst = some "B".data ∧
    (extract_review_info "Product: A\nProduct: B\nReview: x\nReview: y".data).map
        Prod.snd = some "y".data :=
  ⟨extract_last_label_wins.1 "Product: A\nProduct: B\nReview: x\nReview: y".data
      ["Product: A".data] "Product: B".data ["Review: x".data, "Review: y".data]
      (by decide) (by decide) (by decide),
   extract_last_label_wins.2 "Product: A\nProduct: B\nReview: x\nReview: y".data
      ["Product: A".data, "Product: B".data, "Review: x".data] "Review: y".data []
      (by decide) (by decide) (by decide)⟩

/-- C1: when the processing loop over all reviews completes, the list
of data rows handed to the CSV writer has exactly as many rows as there
are non-empty review blobs, i.e. segments of the file contents split on
the delimiter, stripped, with the segments that are empty after
stripping discarded; and the writer receives exactly those rows. -/
theorem output_rows_eq_blobs (contents delimiter : Str) (m : ChatModel)
    (hist h2 : History) (data : List Row) (fs : Option (List Row))
    (h : processLoop m hist [] (read_reviews contents delimiter) = .ok (h2, data)) :
    data.length =
      (((pySplit delimiter contents).map pyStrip).filter (fun b => b ≠ [])).length ∧
    process_reviews contents m hist fs delimiter = (some (csvHeader :: data), .ok h2) := by
  constructor
  · have h3 := processLoop_length m (read_reviews contents delimiter) hist h2 [] data h
    rw [read_reviews] at h3
    simpa using h3
  · unfold process_reviews
    rw [h]
    rfl

/-- Witness for C1 at a one-review file and the always-answering
oracle. -/
theorem output_rows_eq_blobs_witness :
    processLoop okModel [] []
        (read_reviews "Product: A\nReview: ok".data DEFAULT_DELIMITER) =
      .ok (wHist1, [wRow1]) ∧
    ([wRow1] : List Row).length =
      (((pySplit DEFAULT_DELIMITER "Product: A\nReview: ok".data).map pyStrip).filter
        (fun b => b ≠ [])).length ∧
    process_reviews "Product: A\nReview: ok".data okModel [] none DEFAULT_DELIMITER =
      (some (csvHeader :: [wRow1]), .ok wHist1) :=
  ⟨rfl, output_rows_eq_blobs "Product: A\nReview: ok".data DEFAULT_DELIMITER okModel
    [] wHist1 [wRow1] none rfl⟩

/-- C2: if the remote call raises while processing review N (index `n`,
any position), after reviews 1..N-1 succeeded, the exception aborts the
run before the writer is invoked: the output file state is unchanged
(`fs`; with `fs = none`, no output file is produced) and the rows
accumulated for the earlier reviews are discarded.  The writer runs
only through the `.ok` branch of `process_reviews`, i.e. only when the
loop over all reviews completes without error. -/
theorem remote_failure_discards (contents delimiter : Str) (m : ChatModel)
    (hist h2 : History) (rows : List Row) (fs : Option (List Row))
    (n : Nat) (e : Str) (hn : n < (read_reviews contents delimiter).length)
    (hpre : processLoop m hist [] ((read_reviews contents delimiter).take n) =
      .ok (h2, rows))
    (hfail : processStep m h2 ((read_reviews contents delimiter).get ⟨n, hn⟩) =
      .error e) :
    process_reviews contents m hist fs delimiter = (fs, .error e) := by
  have hsplit : read_reviews contents delimiter =
      (read_reviews contents delimiter).take n ++
        ((read_reviews contents delimiter).get ⟨n, hn⟩ ::
          (read_reviews contents delimiter).drop (n + 1)) := by
    conv_lhs => rw [← List.take_append_drop n (read_reviews contents delimiter)]
    rw [List.drop_eq_getElem_cons hn, List.get_eq_getElem]
  have hloop : processLoop m hist [] (read_reviews contents delimiter) = .error e := by
    rw [hsplit, processLoop_append, hpre]
    show processLoop m h2 rows _ = .error e
    rw [processLoop, hfail]
  unfold process_reviews
  rw [hloop]

/-- Witness for C2: with an oracle whose quota runs out on the first
call of the second review, a two-review file produces no output file
and the row computed for the first review is discarded. -/
theorem remote_failure_discards_witness :
    1 < (read_reviews
      "Product: A\nReview: ok\n---END OF REVIEW---\nProduct: B\nReview: bad".data
      DEFAULT_DELIMITER).length ∧
    processLoop failModel [] []
        ((read_reviews
          "Product: A\nReview: ok\n---END OF REVIEW---\nProduct: B\nReview: bad".data
          DEFAULT_DELIMITER).take 1) = .ok (wHist1, [wRow1]) ∧
    processStep failModel wHist1
        ((read_reviews
          "Product: A\nReview: ok\n---END OF REVIEW---\nProduct: B\nReview: bad".data
          DEFAULT_DELIMITER).get ⟨1, by decide⟩) = .error "quota".data ∧
    process_reviews
        "Product: A\nReview: ok\n---END OF REVIEW---\nProduct: B\nReview: bad".data
        failModel [] none DEFAULT_DELIMITER = (none, .error "quota".data) :=
  ⟨by decide, rfl, rfl,
   remote_failure_discards
     "Product: A\nReview: ok\n---END OF REVIEW---\nProduct: B\nReview: bad".data
     DEFAULT_DELIMITER failModel [] wHist1 [wRow1] none 1 "quota".data
     (by decide) rfl rfl⟩

/-- C4: the writer maps any previous state of the destination file to
`some` new content (overwriting an existing file and creating a missing
one alike), whose first row is the fixed header
`Original Product, Guessed Product, Review, Sentiment, Reply` and whose
remaining rows are the data rows in their given order. -/
theorem save_to_csv_spec (data : List Row) (oldFile : Option (List Row)) :
    save_to_csv data oldFile =
      some ((["Original Product".data, "Guessed Product".data, "Review".data,
              "Sentiment".data, "Reply".data] : Row) :: data) := rfl

/-- C5: on success the sentiment returned by `analyze_sentiment` — the
value stored verbatim in the output row — is the lowercased form of
whatever text the remote call returned, with no validation against the
labels Positive/Negative/Neutral (the oracle response `raw` is
arbitrary), and lowercasing it again is the identity. -/
theorem sentiment_lowercased_roundtrip (review_text : Str) (m : ChatModel)
    (hist h2 : History) (sentiment reply : Str)
    (h : analyze_sentiment review_text m hist = .ok (h2, (sentiment, reply))) :
    (∃ raw, m.respond hist (sentimentPrompt review_text) = .ok raw ∧
      sentiment = pyLower raw) ∧
    pyLower sentiment = sentiment := by
  cases hr : m.respond hist (sentimentPrompt review_text) with
  | error e =>
    simp only [analyze_sentiment, send_message, hr] at h
    exact Except.noConfusion h
  | ok raw =>
    simp only [analyze_sentiment, send_message, hr] at h
    cases hr2 : m.respond (hist ++ [sentimentPrompt review_text])
        (replyPrompt review_text (pyLower raw)) with
    | error e =>
      simp only [hr2] at h
      exact Except.noConfusion h
    | ok raw2 =>
      simp only [hr2, Except.ok.injEq, Prod.mk.injEq] at h
      obtain ⟨-, hsent, -⟩ := h
      exact ⟨⟨raw, rfl, hsent.symm⟩, by rw [← hsent, pyLower_pyLower]⟩

/-- Witness for C5: an oracle answering with mixed-case text that is
not one of the three expected labels is accepted; the stored field is
its lowercased form and is a fixed point of lowercasing. -/
theorem sentiment_lowercased_roundtrip_witness :
    analyze_sentiment "ok".data weirdModel [] =
      .ok ([sentimentPrompt "ok".data, replyPrompt "ok".data "weird label".data],
           ("weird label".data, "WeIrD LaBeL".data)) ∧
    ((∃ raw, weirdModel.respond [] (sentimentPrompt "ok".data) = .ok raw ∧
        "weird label".data = pyLower raw) ∧
      pyLower "weird label".data = "weird label".data) :=
  ⟨rfl, sentiment_lowercased_roundtrip "ok".data weirdModel []
    [sentimentPrompt "ok".data, replyPrompt "ok".data "weird label".data]
    "weird label".data "WeIrD LaBeL".data rfl⟩

/-- C6: for one review the orchestrator issues the three remote calls
in the order `guess_product`, `classify_sentiment`, `generate_reply`
(visible in the order the prompts enter the session history), the
reply prompt is conditioned on the sentiment just computed
(`pyLower raw2`), and the assembled row is appended to the in-memory
list before the loop continues with the remaining reviews. -/
theorem enrichment_call_order (m : ChatModel) (hist : History) (data : List Row)
    (review : Str) (rest : List Str)
    (original_product review_text raw1 raw2 raw3 : Str)
    (hext : extract_review_info review = some (original_product, review_text))
    (hg : m.respond hist (productPrompt review_text) = .ok raw1)
    (hs : m.respond (hist ++ [productPrompt review_text])
            (sentimentPrompt review_text) = .ok raw2)
    (hr : m.respond (hist ++ [productPrompt review_text, sentimentPrompt review_text])
            (replyPrompt review_text (pyLower raw2)) = .ok raw3) :
    processLoop m hist data (review :: rest) =
      processLoop m
        (hist ++ [productPrompt review_text, sentimentPrompt review_text,
                  replyPrompt review_text (pyLower raw2)])
        (data ++ [[original_product, pyStrip raw1, review_text, pyLower raw2, raw3]])
        rest := by
  simp only [processLoop, processStep, guess_product, analyze_sentiment, send_message,
    hext, hg, List.append_assoc, List.cons_append, List.singleton_append,
    List.nil_append, hs, hr]

/-- Witness for C6 at a one-review file against the always-answering
oracle. -/
theorem enrichment_call_order_witness :
    extract_review_info "Product: A\nReview: ok".data = some ("A".data, "ok".data) ∧
    okModel.respond [] (productPrompt "ok".data) = .ok "Good".data ∧
    okModel.respond [productPrompt "ok".data] (sentimentPrompt "ok".data) =
      .ok "Good".data ∧
    okModel.respond [productPrompt "ok".data, sentimentPrompt "ok".data]
      (replyPrompt "ok".data (pyLower "Good".data)) = .ok "Good".data ∧
    processLoop okModel [] [] ["Product: A\nReview: ok".data] =
      processLoop okModel
        ([] ++ [productPrompt "ok".data, sentimentPrompt "ok".data,
                replyPrompt "ok".data (pyLower "Good".data)])
        ([] ++ [["A".data, pyStrip "Good".data, "ok".data, pyLower "Good".data,
                 "Good".data]])
        [] :=
  ⟨rfl, rfl, rfl, rfl,
   enrichment_call_order okModel [] [] "Product: A\nReview: ok".data []
     "A".data "ok".data "Good".data "Good".data "Good".data rfl rfl rfl rfl⟩

/-- C7: if the credential environment variable is absent, or present
but empty (falsy), `main` fails with the configuration error message
before any processing: the result does not depend on the file contents
or on the remote model, the output file state is unchanged (with
`fs = none`, no output file is created), and the reported message is
the printed `ValueError`. -/
theorem missing_api_key_fatal (env : Str → Option Str) (contents : Str)
    (m : ChatModel) (fs : Option (List Row))
    (h : env GEMINI_API_KEY = none ∨ env GEMINI_API_KEY = some []) :
    Src.main env contents m fs = (fs, some (errorPrefix ++ apiKeyErrorMsg)) := by
  unfold Src.main
  rcases h with h | h
  · rw [h]
  · rw [h]
    rfl

/-- Witness for C7: an empty environment. -/
theorem missing_api_key_fatal_witness :
    ((fun _ => none : Str → Option Str) GEMINI_API_KEY = none ∨
      (fun _ => none : Str → Option Str) GEMINI_API_KEY = some []) ∧
    Src.main (fun _ => none) "Product: A\nReview: ok".data okModel none =
      (none, some (errorPrefix ++ apiKeyErrorMsg)) :=
  ⟨Or.inl rfl,
   missing_api_key_fatal (fun _ => none) "Product: A\nReview: ok".data okModel none
     (Or.inl rfl)⟩

/-- C10: the loader splits at every occurrence of the delimiter
substring, wherever it occurs: for any segments none of which contains
the delimiter's first character, splitting their interleaving with the
delimiter returns exactly the segments — the delimiter need not stand
on a line of its own, so a delimiter occurring mid-line cuts the text
into two blobs at that point (see the witness). -/
theorem delimiter_splits_every_occurrence (d : Char) (ds : Str) (segs : List Str)
    (hne : segs ≠ []) (hall : ∀ s ∈ segs, d ∉ s) :
    pySplit (d :: ds) (List.intercalate (d :: ds) segs) = segs ∧
    read_reviews (List.intercalate (d :: ds) segs) (d :: ds) =
      (segs.map pyStrip).filter (fun b => b ≠ []) := by
  have h := pySplit_intercalate d ds segs hne hall
  refine ⟨h, ?_⟩
  rw [read_reviews, h]

/-- Witness for C10: the delimiter occurring in the middle of a single
line splits it into two review blobs at that point. -/
theorem delimiter_splits_every_occurrence_witness :
    ((("Review: good".data : Str) :: ["Review: bad".data] ≠ []) ∧
      (∀ s ∈ [("Review: good".data : Str), "Review: bad".data],
        ('-' : Char) ∉ s)) ∧
    (pySplit ('-' :: "--END OF REVIEW---".data)
        (List.intercalate ('-' :: "--END OF REVIEW---".data)
          ["Review: good".data, "Review: bad".data]) =
      ["Review: good".data, "Review: bad".data] ∧
    read_reviews
        (List.intercalate ('-' :: "--END OF REVIEW---".data)
          ["Review: good".data, "Review: bad".data])
        ('-' :: "--END OF REVIEW---".data) =
      ([("Review: good".data : Str), "Review: bad".data].map pyStrip).filter
        (fun b => b ≠ [])) :=
  ⟨⟨by decide, by decide⟩,
   delimiter_splits_every_occurrence '-' "--END OF REVIEW---".data
     ["Review: good".data, "Review: bad".data] (by decide) (by decide)⟩
